import Mathlib

/-!
# Verification of the SATB voice-isolation and lyric-propagation engine

Shallow embedding of `src/satb/__init__.py` (the `satb` command-line tool).
The engine filters a combined SATB choral score down to a single voice
(`extract_part_voice`), repairs the syllable tags of existing lyrics from
tie/slur structure, copies lyrics down from a reference voice by temporal
offset, and assembles the four extracted voices into one four-part score
(`create_single_4part_score`).

The score model mirrors the music21 stream hierarchy as used by the tool:
a `Score` owns optional `Metadata` and a list of `Part`s; a `Part` holds
`Measure`s, each holding `Voice` subgroups, each holding `Note`s.  Spanners
(slurs and dynamic wedges) reference member notes by identity, modelled by
a stable `Nat` identifier carried on every note; a note's temporal offset
(absolute within its staff, the sole lyric-alignment key) is a rational.
Tie types and syllable tags are the closed enumerations used by the tool
(`start`/`continue`/`stop`, `begin`/`middle`/`end`/`single`).

Python's in-place mutation discipline (deep-copy at the function boundary,
then mutate only the private copy) is modelled twice: the value-level
function `extract_part_voice` gives the input/output behaviour, and the
store-passing program `extract_part_voice_prog` makes the heap explicit
(scores live at references in a `Store`; the deep copy allocates a fresh
reference) so that non-mutation of the caller's original is a real theorem.
-/

namespace Satb

/-- Tie type: `start` / `continue` / `stop` (music21 `tie.type` as used by the tool). -/
inductive TieType
  | tStart
  | tContinue
  | tStop
deriving DecidableEq, Repr, Inhabited

/-- A tie marker on a note. -/
structure Tie where
  type : TieType
deriving DecidableEq, Repr, Inhabited

/-- Syllable-position tag of a lyric: `begin` / `middle` / `end` / `single`. -/
inductive Syllabic
  | sBegin
  | sMiddle
  | sEnd
  | sSingle
deriving DecidableEq, Repr, Inhabited

/-- A lyric entry: text plus syllable-position tag. -/
structure Lyric where
  text : String
  syllabic : Syllabic
deriving DecidableEq, Repr, Inhabited

/-- A note (or chord): stable identity, temporal offset within its staff,
optional tie, list of lyric entries (verses), optional stem-direction override. -/
structure Note where
  id : Nat
  offset : ℚ
  tie : Option Tie
  lyrics : List Lyric
  stemDirection : Option String
deriving DecidableEq, Repr, Inhabited

/-- A spanner references its member notes by identity, in order.
Slurs drive syllable tagging; dynamic wedges are carried but ignored by it. -/
inductive Spanner
  | slur (members : List Nat)
  | wedge (members : List Nat)
deriving DecidableEq, Repr, Inhabited

/-- A voice subgroup inside a measure, distinguished by a string identifier. -/
structure Voice where
  id : String
  notes : List Note
deriving DecidableEq, Repr, Inhabited

/-- A measure: the voice subgroups re-declared in it. -/
structure Measure where
  voices : List Voice
deriving DecidableEq, Repr, Inhabited

/-- A part (staff): name, abbreviation, measures, the spanner elements it owns,
and the spanner stream reinserted by `extract_part_voice` (line 80), if any. -/
structure Part where
  partName : Option String
  partAbbreviation : Option String
  measures : List Measure
  spanners : List Spanner
  insertedSpanners : Option (List Spanner)
deriving DecidableEq, Repr, Inhabited

/-- Score-level metadata: title, composer, movement name. -/
structure Metadata where
  title : Option String
  composer : Option String
  movementName : Option String
deriving DecidableEq, Repr, Inhabited

/-- A score: optional metadata plus its parts. -/
structure Score where
  metadata : Option Metadata
  parts : List Part
deriving DecidableEq, Repr, Inhabited

deriving instance DecidableEq for Except

/-- Notes of a measure in document order (`recurse().notes` restricted to it). -/
def Measure.recurseNotes (m : Measure) : List Note :=
  m.voices.flatMap Voice.notes

/-- Notes of a part in document order. -/
def Part.recurseNotes (p : Part) : List Note :=
  p.measures.flatMap Measure.recurseNotes

/-- Notes of a score in document order (`score.recurse().notes`). -/
def Score.recurseNotes (s : Score) : List Note :=
  s.parts.flatMap Part.recurseNotes

/-- The notes of a part that sit in a voice whose identifier equals `vid`. -/
def Part.voiceNotes (p : Part) (vid : String) : List Note :=
  p.measures.flatMap (fun m => (m.voices.filter (fun v => v.id == vid)).flatMap Voice.notes)

/-- Identifiers of the voices occurring anywhere in a part. -/
def Part.voiceIds (p : Part) : List String :=
  p.measures.flatMap (fun m => m.voices.map Voice.id)

/-- A music21 stream argument: `extract_part_voice` accepts either a whole
score or a single part as its `lyrics_stream`. -/
inductive MStream
  | scoreS (s : Score)
  | partS (p : Part)
deriving DecidableEq, Repr, Inhabited

/-- `lyrics_stream.recurse().notes` (line 114). -/
def MStream.recurseNotes : MStream → List Note
  | .scoreS s => s.recurseNotes
  | .partS p => p.recurseNotes

/-- The tie-type → syllable-tag table of lines 92-98. -/
def tagFromTie : TieType → Syllabic
  | .tStart => .sBegin
  | .tContinue => .sMiddle
  | .tStop => .sEnd

/-- The member list of a spanner when it is a slur (`isinstance(span, Slur)`). -/
def Spanner.slurMembers? : Spanner → Option (List Nat)
  | .slur ms => some ms
  | .wedge _ => none

/-- The slurs among `spanners` that have `n` as a member:
`n.getSpannerSites()` filtered to `Slur` instances (lines 101-103). -/
def slurSites (spanners : List Spanner) (n : Note) : List (List Nat) :=
  (spanners.filterMap Spanner.slurMembers?).filter (fun ms => ms.contains n.id)

/-- `n.lyrics[0].syllabic = tag`: rewrite the first lyric's tag, keep the rest. -/
def setFirstLyricTag (tag : Syllabic) : List Lyric → List Lyric
  | [] => []
  | l :: rest => { l with syllabic := tag } :: rest

/-- The positional tag a slur assigns to member `nid`
(`span[0] == n` → begin, `span[-1] == n` → end, else middle; lines 104-109). -/
def slurTagFor (ms : List Nat) (nid : Nat) : Syllabic :=
  if ms.head? = some nid then .sBegin
  else if ms.getLast? = some nid then .sEnd
  else .sMiddle

/-- One turn of the slur loop of lines 102-109: retag the first lyric of `m`
according to `m`'s position in the slur with member list `ms`. -/
def retagStep (m : Note) (ms : List Nat) : Note :=
  { m with lyrics := setFirstLyricTag (slurTagFor ms m.id) m.lyrics }

/-- The per-note body of the loop at lines 82-109: clear the stem-direction
override, then if the note carries lyrics, retag the first lyric from the
note's tie, or failing that from each slur the note is a member of. -/
def retagNote (sites : List Spanner) (n0 : Note) : Note :=
  let n := { n0 with stemDirection := none }
  if n.lyrics.isEmpty then n
  else
    match n.tie with
    | some t => { n with lyrics := setFirstLyricTag (tagFromTie t.type) n.lyrics }
    | none => (slurSites sites n).foldl retagStep n

/-- `note.tie == None or note.tie.type == 'start'` (line 119). -/
def tieAllowsCopy : Option Tie → Bool
  | none => true
  | some t => t.type == TieType.tStart

/-- The per-note body of the copy-down loop at lines 117-128: a note with no
lyric that is not mid-tie looks up the reference notes at its own offset and,
if the first such note carries lyrics, takes that note's whole lyric list. -/
def copyLyricsToNote (lyrics_in : List Note) (n : Note) : Note :=
  if n.lyrics.isEmpty && tieAllowsCopy n.tie then
    match (lyrics_in.filter (fun m => m.offset == n.offset)).head? with
    | some first_note =>
        if first_note.lyrics.isEmpty then n else { n with lyrics := first_note.lyrics }
    | none => n
  else n

/-- Apply `f` to every note of a measure, in place. -/
def Measure.mapNotes (f : Note → Note) (m : Measure) : Measure :=
  { m with voices := m.voices.map (fun v => { v with notes := v.notes.map f }) }

/-- Apply `f` to every note of a part, in place (a `recurse().notes` loop). -/
def Part.mapNotes (f : Note → Note) (p : Part) : Part :=
  { p with measures := p.measures.map (Measure.mapNotes f) }

/-- Remove from a measure every voice whose identifier differs from `vid`. -/
def Measure.keepVoice (vid : String) (m : Measure) : Measure :=
  { m with voices := m.voices.filter (fun v => v.id == vid) }

/-- Lines 74-77: remove, recursively through the measures, every voice whose
identifier differs from `vid`. -/
def Part.keepVoice (vid : String) (p : Part) : Part :=
  { p with measures := p.measures.map (Measure.keepVoice vid) }

/-- The out-of-range message of line 62. -/
def errOutOfRange : String := "Part number is out of range"

/-- The `AttributeError` raised by line 193 when the result score has no metadata. -/
def errAttributeNone : String := "AttributeError: NoneType has no attribute movementName"

/-- The spanner objects whose sites the retag loop can see: the spanner
elements of every part of the deep copy (removal from the tree does not
unregister a spanner from its member notes) together with the copy of the
first part's spanners made at line 65 (spanner deep copies keep referencing
the same member notes). -/
def extractSites (score : Score) : List Spanner :=
  score.parts.flatMap Part.spanners ++ (score.parts.headI).spanners

/-- The single part produced by a successful `extract_part_voice` run:
keep only the selected voice (lines 74-77), reinsert the captured spanner
stream (line 80), clear stems and repair syllable tags (lines 82-109), then
copy lyrics down from the reference stream (lines 112-128). -/
def extractedPart (score : Score) (part_number voice_number : Nat)
    (lyrics_stream : Option MStream) : Part :=
  let spanners := (score.parts.headI).spanners
  let keep_part := score.parts.getD (part_number - 1) default
  let p1 := keep_part.keepVoice (toString voice_number)
  let p2 := { p1 with insertedSpanners := some spanners }
  let p3 := p2.mapNotes (retagNote (extractSites score))
  match lyrics_stream with
  | none => p3
  | some ls => p3.mapNotes (copyLyricsToNote ls.recurseNotes)

/-- `extract_part_voice(score, part_number, voice_number, lyrics_stream)`
(lines 37-141), as a function of the score value (the deep copy of line 58
makes the Python function a pure function of its input; the explicit-store
program below accounts for the heap).  Steps: validate the part number
(lines 61-62); then build the single remaining part and return the score
holding just it. -/
def extract_part_voice (score : Score) (part_number voice_number : Nat)
    (lyrics_stream : Option MStream) : Except String Score :=
  if part_number < 1 ∨ part_number > score.parts.length then
    Except.error errOutOfRange
  else
    Except.ok { score with
                parts := [extractedPart score part_number voice_number lyrics_stream] }

/-- `extract_voice_to_part` (lines 144-169): extract the voice, take the single
remaining part, set its name and abbreviation. -/
def extract_voice_to_part (score : Score) (part_number voice_number : Nat)
    (part_name : String) (lyrics_stream : Option MStream) : Except String Part :=
  match extract_part_voice score part_number voice_number lyrics_stream with
  | .error e => .error e
  | .ok voice_score =>
      let extracted_part := voice_score.parts.headI
      .ok { extracted_part with partName := some part_name,
                                partAbbreviation := some part_name }

/-- The canonical SATB `(part_number, voice_number, voice_name)` mappings (lines 29-34). -/
def VOICE_MAPPINGS : List (Nat × Nat × String) :=
  [(1, 1, "Soprano"), (1, 2, "Alto"), (2, 5, "Tenor"), (2, 6, "Bass")]

/-- `len(part)` at the stream level: measures, spanner elements, and the
reinserted spanner stream (one element) all count. -/
def Part.elementsLength (p : Part) : Nat :=
  p.measures.length + p.spanners.length + (if p.insertedSpanners.isSome then 1 else 0)

/-- Python truthiness of the `first_part` accumulator in
`create_single_4part_score`: `None` is falsy, a part is falsy iff empty. -/
def streamTruthy : Option Part → Bool
  | none => false
  | some p => p.elementsLength != 0

/-- The extraction loop of lines 203-208: extract each mapped voice, passing
the accumulated `first_part` as the lyric reference; `first_part` is set to
the freshly extracted part whenever it is still falsy. -/
def assembleParts (score : Score) :
    List (Nat × Nat × String) → Option Part → List Part → Except String (List Part)
  | [], _, acc => .ok acc
  | (pn, vn, name) :: rest, first_part, acc =>
      match extract_voice_to_part score pn vn name (first_part.map MStream.partS) with
      | .error e => .error e
      | .ok part =>
          let fp := if streamTruthy first_part then first_part else some part
          assembleParts score rest fp (acc ++ [part])

/-- `create_single_4part_score` (lines 171-210): copy the metadata from the
original when present, clear the movement name on the result's metadata
(an `AttributeError` when there is none), then run the extraction loop. -/
def create_single_4part_score (score : Score) : Except String Score :=
  match score.metadata with
  | none => .error errAttributeNone
  | some md =>
      match assembleParts score VOICE_MAPPINGS none [] with
      | .error e => .error e
      | .ok ps => .ok { metadata := some { md with movementName := none }, parts := ps }

/-- A heap of score objects; a reference is an index. -/
structure Store where
  scores : List Score
deriving DecidableEq, Repr, Inhabited

/-- `extract_part_voice` with the heap explicit: the caller passes a reference
to its score; line 58's deep copy allocates a fresh object, and every
subsequent mutation targets only that fresh object.  Returns the new heap and
either the reference to the result or the raised error. -/
def extract_part_voice_prog (st : Store) (r : Nat) (part_number voice_number : Nat)
    (lyrics_stream : Option MStream) : Store × Except String Nat :=
  match st.scores[r]? with
  | none => (st, .error "invalid score reference")
  | some s =>
      let rCopy := st.scores.length
      let stAlloc : Store := ⟨st.scores ++ [s]⟩
      match extract_part_voice s part_number voice_number lyrics_stream with
      | .error e => (stAlloc, .error e)
      | .ok s2 => (⟨stAlloc.scores.set rCopy s2⟩, .ok rCopy)

/-- The end-to-end per-note transformation applied by `extract_part_voice`:
stem clearing plus tag repair, then (when a reference is given) lyric copy-down. -/
def extractNoteFun (score : Score) (lyrics_stream : Option MStream) : Note → Note :=
  match lyrics_stream with
  | none => retagNote (extractSites score)
  | some ls => fun n => copyLyricsToNote ls.recurseNotes (retagNote (extractSites score) n)

/-- The part returned by a successful `extract_voice_to_part` call: the
extracted part carrying the requested name and abbreviation. -/
def namedExtractedPart (score : Score) (part_number voice_number : Nat)
    (part_name : String) (lyrics_stream : Option MStream) : Part :=
  { extractedPart score part_number voice_number lyrics_stream with
    partName := some part_name, partAbbreviation := some part_name }

/-! ## Concrete fixtures used to exercise the theorems -/

/-- A note carrying one lyric and a `start` tie. -/
def wNoteTieStart : Note :=
  { id := 10, offset := 0, tie := some ⟨.tStart⟩,
    lyrics := [{ text := "la", syllabic := .sSingle }], stemDirection := some "up" }

/-- A lyric-less note in the middle of a tie (`continue`). -/
def wNoteTieCont : Note :=
  { id := 11, offset := 0, tie := some ⟨.tContinue⟩, lyrics := [], stemDirection := none }

/-- A lyric-less untied note, eligible for lyric copy-down. -/
def wNoteEligible : Note :=
  { id := 12, offset := 0, tie := none, lyrics := [], stemDirection := none }

/-- A reference note at offset 0 carrying two lyric verses. -/
def wRefNote : Note :=
  { id := 20, offset := 0, tie := none,
    lyrics := [{ text := "word", syllabic := .sSingle },
               { text := "verse2", syllabic := .sSingle }], stemDirection := none }

/-- A lyric-less reference note at offset 0. -/
def wRefEmpty : Note :=
  { id := 21, offset := 0, tie := none, lyrics := [], stemDirection := none }

/-- A one-measure, two-voice score: voice `"1"` carries the lyrics, voice
`"2"` is bare; both voices have notes at offsets 0 and 1. -/
def wScore : Score :=
  { metadata := some { title := some "Title", composer := some "Composer",
                       movementName := some "file.musicxml" },
    parts :=
      [{ partName := none, partAbbreviation := none,
         measures :=
           [{ voices :=
                [{ id := "1",
                   notes :=
                     [{ id := 1, offset := 0, tie := none,
                        lyrics := [{ text := "Joy", syllabic := .sSingle }],
                        stemDirection := some "up" },
                      { id := 2, offset := 1, tie := none,
                        lyrics := [{ text := "ful", syllabic := .sSingle }],
                        stemDirection := some "up" }] },
                 { id := "2",
                   notes :=
                     [{ id := 3, offset := 0, tie := none, lyrics := [],
                        stemDirection := some "down" },
                      { id := 4, offset := 1, tie := some ⟨.tContinue⟩, lyrics := [],
                        stemDirection := none }] }] }],
         spanners := [], insertedSpanners := none },
       { partName := none, partAbbreviation := none,
         measures :=
           [{ voices :=
                [{ id := "5",
                   notes :=
                     [{ id := 5, offset := 0, tie := none, lyrics := [],
                        stemDirection := some "up" }] },
                 { id := "6",
                   notes :=
                     [{ id := 6, offset := 0, tie := none, lyrics := [],
                        stemDirection := some "down" }] }] }],
         spanners := [], insertedSpanners := none }] }

/-- A score with no metadata at all. -/
def wScoreNoMeta : Score := { metadata := none, parts := wScore.parts }

/-- A one-score heap for the store-passing program. -/
def wStore : Store := { scores := [wScore] }

/-! ## Basic lemmas about the per-note passes -/

/-- Retagging twice keeps only the second tag. -/
theorem setFirstLyricTag_comp (t1 t2 : Syllabic) (ls : List Lyric) :
    setFirstLyricTag t2 (setFirstLyricTag t1 ls) = setFirstLyricTag t2 ls := by
  cases ls <;> rfl

/-- `setFirstLyricTag` does not change the number of lyric entries. -/
theorem setFirstLyricTag_length (t : Syllabic) (ls : List Lyric) :
    (setFirstLyricTag t ls).length = ls.length := by
  cases ls <;> rfl

/-- Closed form of the slur-retagging fold: only the last slur's tag survives. -/
theorem foldl_retagStep (n : Note) (l : List (List Nat)) :
    l.foldl retagStep n =
      match l.getLast? with
      | none => n
      | some ms => { n with lyrics := setFirstLyricTag (slurTagFor ms n.id) n.lyrics } := by
  induction l generalizing n with
  | nil => rfl
  | cons ms l ih =>
    rw [List.foldl_cons, ih]
    cases l with
    | nil => rfl
    | cons ms2 l2 =>
      rw [List.getLast?_cons_cons]
      cases h : (ms2 :: l2).getLast? with
      | none => exact absurd (List.getLast?_eq_none_iff.mp h) (by simp)
      | some ms3 => simp [retagStep, setFirstLyricTag_comp]

/-- Closed form of `retagNote`. -/
theorem retagNote_eq (sites : List Spanner) (n : Note) :
    retagNote sites n =
      if n.lyrics.isEmpty then { n with stemDirection := none }
      else
        match n.tie with
        | some t =>
            { n with stemDirection := none,
                     lyrics := setFirstLyricTag (tagFromTie t.type) n.lyrics }
        | none =>
            match (slurSites sites n).getLast? with
            | none => { n with stemDirection := none }
            | some ms =>
                { n with stemDirection := none,
                         lyrics := setFirstLyricTag (slurTagFor ms n.id) n.lyrics } := by
  unfold retagNote
  cases n with
  | mk i o t ls sd =>
      simp only []
      cases hls : ls.isEmpty
      · simp only [hls, Bool.false_eq_true, if_false]
        cases t with
        | none =>
            rw [foldl_retagStep]
            rfl
        | some tt => rfl
      · simp [hls]

/-- `retagNote` never changes a note's identity. -/
theorem retagNote_id (sites : List Spanner) (n : Note) :
    (retagNote sites n).id = n.id := by
  rw [retagNote_eq]
  split
  · rfl
  · split
    · rfl
    · split <;> rfl

/-- `retagNote` never changes a note's offset. -/
theorem retagNote_offset (sites : List Spanner) (n : Note) :
    (retagNote sites n).offset = n.offset := by
  rw [retagNote_eq]
  split
  · rfl
  · split
    · rfl
    · split <;> rfl

/-- `retagNote` never changes a note's tie. -/
theorem retagNote_tie (sites : List Spanner) (n : Note) :
    (retagNote sites n).tie = n.tie := by
  rw [retagNote_eq]
  split
  · rfl
  · split
    · rfl
    · split <;> rfl

/-- `retagNote` always clears the stem-direction override. -/
theorem retagNote_stemDirection (sites : List Spanner) (n : Note) :
    (retagNote sites n).stemDirection = none := by
  rw [retagNote_eq]
  split
  · rfl
  · split
    · rfl
    · split <;> rfl

/-- `copyLyricsToNote` changes at most the lyrics field. -/
theorem copyLyricsToNote_fields (li : List Note) (n : Note) :
    (copyLyricsToNote li n).id = n.id ∧ (copyLyricsToNote li n).offset = n.offset
    ∧ (copyLyricsToNote li n).tie = n.tie
    ∧ (copyLyricsToNote li n).stemDirection = n.stemDirection := by
  unfold copyLyricsToNote
  split
  · split
    · split
      · exact ⟨rfl, rfl, rfl, rfl⟩
      · exact ⟨rfl, rfl, rfl, rfl⟩
    · exact ⟨rfl, rfl, rfl, rfl⟩
  · exact ⟨rfl, rfl, rfl, rfl⟩

/-! ## Lemmas about the tree-level passes -/

/-- Mapping over the notes of a part maps over its flattened note list. -/
theorem Part.recurseNotes_mapNotes (f : Note → Note) (p : Part) :
    (p.mapNotes f).recurseNotes = p.recurseNotes.map f := by
  simp [Part.mapNotes, Part.recurseNotes, Measure.mapNotes, Measure.recurseNotes,
    List.map_flatMap, List.flatMap_map, Function.comp]

/-- Keeping one voice keeps exactly that voice's notes. -/
theorem Part.recurseNotes_keepVoice (vid : String) (p : Part) :
    (p.keepVoice vid).recurseNotes = p.voiceNotes vid := by
  simp [Part.keepVoice, Part.recurseNotes, Measure.keepVoice, Measure.recurseNotes,
    Part.voiceNotes, List.map_flatMap, List.flatMap_map, Function.comp]

/-- `mapNotes` keeps the part's voice identifiers. -/
theorem Part.voiceIds_mapNotes (f : Note → Note) (p : Part) :
    (p.mapNotes f).voiceIds = p.voiceIds := by
  have hc : (Voice.id ∘ fun v => { v with notes := v.notes.map f }) = Voice.id :=
    funext fun v => rfl
  simp only [Part.mapNotes, Part.voiceIds, Measure.mapNotes, List.map_flatMap,
    List.flatMap_map, List.map_map, Function.comp, hc]

/-- After `keepVoice vid`, every remaining voice identifier equals `vid`. -/
theorem Part.voiceIds_keepVoice (vid : String) (p : Part) :
    ∀ v ∈ (p.keepVoice vid).voiceIds, v = vid := by
  intro v hv
  simp only [Part.keepVoice, Part.voiceIds, List.mem_flatMap] at hv
  obtain ⟨m, hm, hv2⟩ := hv
  obtain ⟨m0, _, rfl⟩ := List.mem_map.mp hm
  obtain ⟨w, hw, rfl⟩ := List.mem_map.mp hv2
  exact eq_of_beq (List.mem_filter.mp hw).2

/-- `mapNotes` does not touch the reinserted spanner stream. -/
theorem Part.insertedSpanners_mapNotes (f : Note → Note) (p : Part) :
    (p.mapNotes f).insertedSpanners = p.insertedSpanners := rfl

/-- The part built by a successful extraction always carries the reinserted
spanner stream. -/
theorem extractedPart_insertedSpanners (score : Score) (pn vn : Nat)
    (lyr : Option MStream) :
    (extractedPart score pn vn lyr).insertedSpanners = some (score.parts.headI).spanners := by
  unfold extractedPart
  cases lyr <;> rfl

/-- The flattened note list of the extracted part: exactly the selected
voice's notes, each passed through the per-note transformation. -/
theorem extractedPart_recurseNotes (score : Score) (pn vn : Nat)
    (lyr : Option MStream) :
    (extractedPart score pn vn lyr).recurseNotes =
      ((score.parts.getD (pn - 1) default).voiceNotes (toString vn)).map
        (extractNoteFun score lyr) := by
  have hset : ∀ (p : Part) (x : Option (List Spanner)),
      Part.recurseNotes { p with insertedSpanners := x } = p.recurseNotes :=
    fun p x => rfl
  unfold extractedPart extractNoteFun
  cases lyr with
  | none =>
      rw [Part.recurseNotes_mapNotes, hset, Part.recurseNotes_keepVoice]
  | some ls =>
      rw [Part.recurseNotes_mapNotes, Part.recurseNotes_mapNotes, hset,
        Part.recurseNotes_keepVoice, List.map_map]
      rfl

/-- The copy-eligibility test of line 119, as a proposition: the note has no
lyric and its tie is absent or of type `start`. -/
theorem copyCond_iff (n : Note) :
    (n.lyrics.isEmpty && tieAllowsCopy n.tie) = true ↔
      (n.lyrics = [] ∧ (n.tie = none ∨ n.tie = some ⟨.tStart⟩)) := by
  cases ht : n.tie with
  | none => simp [tieAllowsCopy, List.isEmpty_iff]
  | some t =>
      cases t with
      | mk tt => cases tt <;> simp [tieAllowsCopy, List.isEmpty_iff]

/-! ## The claims -/

/-- C1.  Syllable-tag repair: for a note that already carries a lyric, the
first lyric's syllable tag is recomputed by `retagNote` (applied by
`extract_part_voice` to every note of the filtered voice): a `start` tie
gives `begin`, a `continue` tie gives `middle`, a `stop` tie gives `end`;
with no tie, membership in a slur gives `begin` on the slur's first member,
`end` on its last, `middle` otherwise; with neither tie nor slur membership
the lyrics are left exactly as authored. -/
theorem c1_syllable_tag_repair (sites : List Spanner) (n : Note)
    (hl : n.lyrics ≠ []) :
    (n.tie = some ⟨.tStart⟩ →
      (retagNote sites n).lyrics.head?.map Lyric.syllabic = some .sBegin)
    ∧ (n.tie = some ⟨.tContinue⟩ →
      (retagNote sites n).lyrics.head?.map Lyric.syllabic = some .sMiddle)
    ∧ (n.tie = some ⟨.tStop⟩ →
      (retagNote sites n).lyrics.head?.map Lyric.syllabic = some .sEnd)
    ∧ (n.tie = none → ∀ s0, slurSites sites n ≠ [] →
        (∀ ms ∈ slurSites sites n, ms = s0) →
        (retagNote sites n).lyrics.head?.map Lyric.syllabic =
          some (if s0.head? = some n.id then .sBegin
                else if s0.getLast? = some n.id then .sEnd else .sMiddle))
    ∧ (n.tie = none → slurSites sites n = [] →
        (retagNote sites n).lyrics = n.lyrics) := by
  have hne : n.lyrics.isEmpty = false := by
    rw [List.isEmpty_eq_false_iff_exists_mem]
    cases hx : n.lyrics with
    | nil => exact absurd hx hl
    | cons a l => exact ⟨a, by simp⟩
  obtain ⟨l0, ls, hls⟩ : ∃ l0 ls, n.lyrics = l0 :: ls := by
    cases hx : n.lyrics with
    | nil => exact absurd hx hl
    | cons a l => exact ⟨a, l, rfl⟩
  refine ⟨?_, ?_, ?_, ?_, ?_⟩
  · intro ht
    rw [retagNote_eq, hne, ht]
    simp [hls, setFirstLyricTag, tagFromTie]
  · intro ht
    rw [retagNote_eq, hne, ht]
    simp [hls, setFirstLyricTag, tagFromTie]
  · intro ht
    rw [retagNote_eq, hne, ht]
    simp [hls, setFirstLyricTag, tagFromTie]
  · intro ht s0 hstne hall
    have hlast : (slurSites sites n).getLast? = some s0 := by
      rw [List.getLast?_eq_getLast _ hstne]
      exact congrArg some (hall _ (List.getLast_mem hstne))
    rw [retagNote_eq, hne, ht, hlast]
    simp [hls, setFirstLyricTag, slurTagFor]
  · intro ht hs
    rw [retagNote_eq, hne, ht, hs]
    simp

/-- Exercises C1 on a concrete note: a `start` tie retags the lyric `begin`. -/
theorem c1_syllable_tag_repair_witness :
    (retagNote [] wNoteTieStart).lyrics.head?.map Lyric.syllabic =
      some Syllabic.sBegin :=
  (c1_syllable_tag_repair [] wNoteTieStart (by decide)).1 rfl

/-- C2.  Copy-down eligibility: `copyLyricsToNote` (the body of the copy loop
of `extract_part_voice`) leaves a note untouched unless it has no lyric and
its tie is absent or of type `start`; in particular a note whose tie is of
type `continue` or `stop` never receives a copied lyric, whatever the
reference notes at its offset hold. -/
theorem c2_copy_eligibility (li : List Note) (n : Note) :
    (¬ (n.lyrics = [] ∧ (n.tie = none ∨ n.tie = some ⟨.tStart⟩)) →
      copyLyricsToNote li n = n)
    ∧ ((n.tie = some ⟨.tContinue⟩ ∨ n.tie = some ⟨.tStop⟩) →
      copyLyricsToNote li n = n) := by
  constructor
  · intro h
    have hc : (n.lyrics.isEmpty && tieAllowsCopy n.tie) = false := by
      cases hb : (n.lyrics.isEmpty && tieAllowsCopy n.tie) with
      | false => rfl
      | true => exact absurd ((copyCond_iff n).mp hb) h
    unfold copyLyricsToNote
    simp [hc]
  · intro h
    have hc : (n.lyrics.isEmpty && tieAllowsCopy n.tie) = false := by
      cases h with
      | inl h2 => simp [tieAllowsCopy, h2]
      | inr h2 => simp [tieAllowsCopy, h2]
    unfold copyLyricsToNote
    simp [hc]

/-- Exercises C2 on a concrete note: a lyric-less `continue`-tied note is not
given the lyric present on a reference note at the same offset. -/
theorem c2_copy_eligibility_witness :
    copyLyricsToNote [wRefNote] wNoteTieCont = wNoteTieCont :=
  (c2_copy_eligibility [wRefNote] wNoteTieCont).2 (Or.inl rfl)

/-- C3.  Copy-down behaviour: for an eligible note (no lyric, tie absent or
`start`), `copyLyricsToNote` looks at the reference notes whose offset equals
the note's own; if there is none the note is left unchanged (and no error is
raised — the function is total), and otherwise the first such reference
note's lyrics, when non-empty, are copied onto the note, which is otherwise
left unchanged. -/
theorem c3_copy_behaviour (li : List Note) (n : Note)
    (h1 : n.lyrics = []) (h2 : n.tie = none ∨ n.tie = some ⟨.tStart⟩) :
    (li.filter (fun m => m.offset == n.offset) = [] → copyLyricsToNote li n = n)
    ∧ (∀ m ms, li.filter (fun m2 => m2.offset == n.offset) = m :: ms →
        (m.lyrics ≠ [] → copyLyricsToNote li n = { n with lyrics := m.lyrics })
        ∧ (m.lyrics = [] → copyLyricsToNote li n = n)) := by
  have hc : (n.lyrics.isEmpty && tieAllowsCopy n.tie) = true :=
    (copyCond_iff n).mpr ⟨h1, h2⟩
  constructor
  · intro hfil
    unfold copyLyricsToNote
    simp [hc, hfil]
  · intro m ms hfil
    constructor
    · intro hm
      have hme : m.lyrics.isEmpty = false := by
        cases hx : m.lyrics with
        | nil => exact absurd hx hm
        | cons a l => rfl
      unfold copyLyricsToNote
      simp [hc, hfil, hme]
    · intro hm
      unfold copyLyricsToNote
      simp [hc, hfil, hm]

/-- Exercises C3 on a concrete note: the eligible note receives the whole
lyric list of the reference note found at its offset. -/
theorem c3_copy_behaviour_witness :
    copyLyricsToNote [wRefNote] wNoteEligible =
      { wNoteEligible with lyrics := wRefNote.lyrics } :=
  (((c3_copy_behaviour [wRefNote] wNoteEligible rfl (Or.inl rfl)).2
      wRefNote [] (by decide)).1 (by decide))

/-- C10.  Only the first reference note found at the matching offset is
consulted by `copyLyricsToNote`: when that note carries no lyrics the target
stays lyric-less whatever the later matches hold, and when it does carry
lyrics the target receives that note's entire lyric list (all verses). -/
theorem c10_first_match_only (li : List Note) (n m : Note) (ms : List Note)
    (h1 : n.lyrics = []) (h2 : n.tie = none ∨ n.tie = some ⟨.tStart⟩)
    (hfil : li.filter (fun m2 => m2.offset == n.offset) = m :: ms) :
    (m.lyrics = [] → copyLyricsToNote li n = n)
    ∧ (m.lyrics ≠ [] → (copyLyricsToNote li n).lyrics = m.lyrics) := by
  have hc : (n.lyrics.isEmpty && tieAllowsCopy n.tie) = true :=
    (copyCond_iff n).mpr ⟨h1, h2⟩
  constructor
  · intro hm
    unfold copyLyricsToNote
    simp [hc, hfil, hm]
  · intro hm
    have hme : m.lyrics.isEmpty = false := by
      cases hx : m.lyrics with
      | nil => exact absurd hx hm
      | cons a l => rfl
    unfold copyLyricsToNote
    simp [hc, hfil, hme]

/-- Exercises C10 on concrete notes: the first matching reference note has no
lyrics, so the target stays lyric-less although the second matching
reference note does carry a lyric. -/
theorem c10_first_match_only_witness :
    copyLyricsToNote [wRefEmpty, wRefNote] wNoteEligible = wNoteEligible :=
  (c10_first_match_only [wRefEmpty, wRefNote] wNoteEligible wRefEmpty [wRefNote]
    rfl (Or.inl rfl) (by decide)).1 rfl

/-- The per-note transformation of a whole extraction keeps note identity. -/
theorem extractNoteFun_id (score : Score) (lyr : Option MStream) (n : Note) :
    (extractNoteFun score lyr n).id = n.id := by
  cases lyr with
  | none => exact retagNote_id _ n
  | some ls =>
      show (copyLyricsToNote _ (retagNote _ n)).id = n.id
      rw [(copyLyricsToNote_fields _ _).1, retagNote_id]

/-- The per-note transformation of a whole extraction leaves the
stem-direction override cleared. -/
theorem extractNoteFun_stemDirection (score : Score) (lyr : Option MStream) (n : Note) :
    (extractNoteFun score lyr n).stemDirection = none := by
  cases lyr with
  | none => exact retagNote_stemDirection _ n
  | some ls =>
      show (copyLyricsToNote _ (retagNote _ n)).stemDirection = none
      rw [(copyLyricsToNote_fields _ _).2.2.2, retagNote_stemDirection]

/-- Every voice identifier surviving an extraction is the selected one. -/
theorem extractedPart_voiceIds (score : Score) (pn vn : Nat) (lyr : Option MStream) :
    ∀ vid ∈ (extractedPart score pn vn lyr).voiceIds, vid = toString vn := by
  have hset : ∀ (p : Part) (x : Option (List Spanner)),
      Part.voiceIds { p with insertedSpanners := x } = p.voiceIds :=
    fun p x => rfl
  unfold extractedPart
  cases lyr with
  | none =>
      rw [Part.voiceIds_mapNotes, hset]
      exact Part.voiceIds_keepVoice _ _
  | some ls =>
      rw [Part.voiceIds_mapNotes, Part.voiceIds_mapNotes, hset]
      exact Part.voiceIds_keepVoice _ _

/-- C4.  Result shape of the voice filter: for a valid part number the
extraction succeeds and returns a score with exactly one part, all surviving
voice subgroups carry the selected voice identifier, the surviving notes are
exactly (by identity, in order) the notes of the selected voice of the
selected part, and when no voice matches, the result simply has zero notes. -/
theorem c4_filter_shape (s : Score) (pn vn : Nat) (lyr : Option MStream)
    (h1 : 1 ≤ pn) (h2 : pn ≤ s.parts.length) :
    ∃ res, extract_part_voice s pn vn lyr = Except.ok res
      ∧ res.parts.length = 1
      ∧ (∀ p ∈ res.parts, ∀ vid ∈ p.voiceIds, vid = toString vn)
      ∧ res.recurseNotes.map Note.id =
          ((s.parts.getD (pn - 1) default).voiceNotes (toString vn)).map Note.id
      ∧ ((s.parts.getD (pn - 1) default).voiceNotes (toString vn) = [] →
          res.recurseNotes = []) := by
  have hcond : ¬ (pn < 1 ∨ pn > s.parts.length) := by omega
  have hok : extract_part_voice s pn vn lyr =
      Except.ok { s with parts := [extractedPart s pn vn lyr] } := by
    unfold extract_part_voice
    rw [if_neg hcond]
  have hnotes : Score.recurseNotes { s with parts := [extractedPart s pn vn lyr] } =
      ((s.parts.getD (pn - 1) default).voiceNotes (toString vn)).map
        (extractNoteFun s lyr) := by
    show (extractedPart s pn vn lyr).recurseNotes ++ [].flatMap Part.recurseNotes = _
    rw [extractedPart_recurseNotes]
    simp
  refine ⟨_, hok, rfl, ?_, ?_, ?_⟩
  · intro p hp
    rw [List.mem_singleton] at hp
    subst hp
    exact extractedPart_voiceIds s pn vn lyr
  · rw [hnotes, List.map_map]
    exact List.map_congr_left fun n _ => extractNoteFun_id s lyr n
  · intro hempty
    rw [hnotes, hempty]
    rfl

/-- Exercises C4 on the sample score: extracting part 1, voice 2 yields one
part whose notes are exactly the two notes of voice `"2"`. -/
theorem c4_filter_shape_witness :
    1 ≤ 1 ∧ 1 ≤ wScore.parts.length
    ∧ (∃ res, extract_part_voice wScore 1 2 none = Except.ok res
        ∧ res.parts.length = 1 ∧ res.recurseNotes.map Note.id = [3, 4]) := by
  refine ⟨by decide, by decide, ?_⟩
  obtain ⟨res, hok, hlen, _, hids, _⟩ :=
    c4_filter_shape wScore 1 2 none (by decide) (by decide)
  exact ⟨res, hok, hlen, by rw [hids]; decide⟩

/-- C7.  Stem-direction clearing: every note surviving any successful
extraction has its stem-direction override cleared. -/
theorem c7_stem_cleared (s : Score) (pn vn : Nat) (lyr : Option MStream) (res : Score)
    (h : extract_part_voice s pn vn lyr = Except.ok res) :
    ∀ n ∈ res.recurseNotes, n.stemDirection = none := by
  unfold extract_part_voice at h
  by_cases hc : pn < 1 ∨ pn > s.parts.length
  · rw [if_pos hc] at h
    cases h
  · rw [if_neg hc] at h
    have hres := (Except.ok.inj h).symm
    subst hres
    intro n hn
    have : Score.recurseNotes { s with parts := [extractedPart s pn vn lyr] } =
        (extractedPart s pn vn lyr).recurseNotes := by
      show (extractedPart s pn vn lyr).recurseNotes ++ [].flatMap Part.recurseNotes = _
      simp
    rw [this, extractedPart_recurseNotes] at hn
    obtain ⟨n0, _, rfl⟩ := List.mem_map.mp hn
    exact extractNoteFun_stemDirection s lyr n0

/-- Exercises C7 on the sample score: both surviving notes of voice `"1"`
have their stem overrides (previously `up`) cleared. -/
theorem c7_stem_cleared_witness :
    ∃ res, extract_part_voice wScore 1 1 none = Except.ok res
      ∧ ∀ n ∈ res.recurseNotes, n.stemDirection = none :=
  ⟨_, rfl, c7_stem_cleared wScore 1 1 none _ rfl⟩

/-- Whatever the arguments and outcome, the store-passing extraction never
changes what any pre-existing reference points at. -/
theorem extract_prog_preserves (st : Store) (r pn vn : Nat) (lyr : Option MStream)
    (r2 : Nat) (hr2 : r2 < st.scores.length) :
    (extract_part_voice_prog st r pn vn lyr).1.scores[r2]? = st.scores[r2]? := by
  unfold extract_part_voice_prog
  cases h : st.scores[r]? with
  | none => rfl
  | some s =>
      cases hx : extract_part_voice s pn vn lyr with
      | error e =>
          simp only [hx]
          exact List.getElem?_append_left hr2
      | ok s2 =>
          simp only [hx]
          rw [List.getElem?_set_ne (by omega), List.getElem?_append_left hr2]

/-- The result component of the store-passing extraction, given a valid
reference: the pure function's error, or a reference to the fresh object. -/
theorem extract_prog_snd (st : Store) (r pn vn : Nat) (lyr : Option MStream)
    (s : Score) (h : st.scores[r]? = some s) :
    (extract_part_voice_prog st r pn vn lyr).2 =
      match extract_part_voice s pn vn lyr with
      | .error e => .error e
      | .ok _ => .ok st.scores.length := by
  unfold extract_part_voice_prog
  rw [h]
  cases hx : extract_part_voice s pn vn lyr <;> simp only [hx]

/-- C5.  Non-mutation: a call to the extraction engine — with or without a
lyric reference, succeeding or failing — leaves the caller's original score
object exactly as it was (hence same note count, lyric set and spanner set),
and any returned result is a distinct, freshly allocated object. -/
theorem c5_non_mutation (st : Store) (r pn vn : Nat) (lyr : Option MStream)
    (s : Score) (h : st.scores[r]? = some s) :
    (extract_part_voice_prog st r pn vn lyr).1.scores[r]? = some s
    ∧ (∀ r2, (extract_part_voice_prog st r pn vn lyr).2 = Except.ok r2 → r2 ≠ r) := by
  have hr : r < st.scores.length := by
    by_contra hge
    rw [List.getElem?_eq_none (by omega)] at h
    cases h
  constructor
  · rw [extract_prog_preserves st r pn vn lyr r hr]
    exact h
  · intro r2 h2
    rw [extract_prog_snd st r pn vn lyr s h] at h2
    cases hx : extract_part_voice s pn vn lyr with
    | error e => rw [hx] at h2; cases h2
    | ok s2 =>
        rw [hx] at h2
        have : r2 = st.scores.length := (Except.ok.inj h2).symm
        omega

/-- Exercises C5 on the sample heap: after an extraction that also copies
lyrics, reference 0 still holds the untouched original score. -/
theorem c5_non_mutation_witness :
    (extract_part_voice_prog wStore 0 1 2
        (some (MStream.scoreS wScore))).1.scores[0]? = some wScore :=
  (c5_non_mutation wStore 0 1 2 (some (MStream.scoreS wScore)) wScore rfl).1

/-- C6.  Out-of-range staff index: with a valid reference, the extraction
fails with the out-of-range error exactly when the part number lies outside
`[1, staff_count]`, and on failure the original score object is untouched. -/
theorem c6_out_of_range (st : Store) (r pn vn : Nat) (lyr : Option MStream)
    (s : Score) (h : st.scores[r]? = some s) :
    ((extract_part_voice_prog st r pn vn lyr).2 = Except.error errOutOfRange ↔
      (pn < 1 ∨ pn > s.parts.length))
    ∧ (extract_part_voice_prog st r pn vn lyr).1.scores[r]? = some s := by
  have hr : r < st.scores.length := by
    by_contra hge
    rw [List.getElem?_eq_none (by omega)] at h
    cases h
  refine ⟨?_, by rw [extract_prog_preserves st r pn vn lyr r hr]; exact h⟩
  rw [extract_prog_snd st r pn vn lyr s h]
  by_cases hc : pn < 1 ∨ pn > s.parts.length
  · unfold extract_part_voice
    rw [if_pos hc]
    simpa using hc
  · unfold extract_part_voice
    rw [if_neg hc]
    simpa using hc

/-- Exercises C6 on the sample heap: part 5 of the 2-part sample score is out
of range, the call fails, and reference 0 still holds the original. -/
theorem c6_out_of_range_witness :
    (extract_part_voice_prog wStore 0 5 1 none).2 = Except.error errOutOfRange
    ∧ (extract_part_voice_prog wStore 0 5 1 none).1.scores[0]? = some wScore :=
  ⟨((c6_out_of_range wStore 0 5 1 none wScore rfl).1).mpr (by decide),
    (c6_out_of_range wStore 0 5 1 none wScore rfl).2⟩

/-- A valid part number makes `extract_voice_to_part` succeed with the named
extracted part. -/
theorem extract_voice_to_part_ok (s : Score) (pn vn : Nat) (name : String)
    (lyr : Option MStream) (h1 : 1 ≤ pn) (h2 : pn ≤ s.parts.length) :
    extract_voice_to_part s pn vn name lyr =
      Except.ok (namedExtractedPart s pn vn name lyr) := by
  unfold extract_voice_to_part extract_part_voice namedExtractedPart
  rw [if_neg (by omega)]
  rfl

/-- A freshly extracted part is a truthy (non-empty) stream: it always holds
the reinserted spanner stream as an element. -/
theorem namedExtractedPart_truthy (s : Score) (pn vn : Nat) (name : String)
    (lyr : Option MStream) :
    streamTruthy (some (namedExtractedPart s pn vn name lyr)) = true := by
  have hins : (namedExtractedPart s pn vn name lyr).insertedSpanners.isSome = true := by
    show (extractedPart s pn vn lyr).insertedSpanners.isSome = true
    rw [extractedPart_insertedSpanners]
    rfl
  show ((namedExtractedPart s pn vn name lyr).elementsLength != 0) = true
  unfold Part.elementsLength
  rw [hins]
  simp

/-- C8.  Four-part assembly: on a score with metadata and at least two parts,
`create_single_4part_score` extracts Soprano first with no lyric reference,
then Alto, Tenor and Bass each with the already-extracted Soprano part as the
lyric reference, returns the four parts in that order in one new score,
copies the title and composer from the original metadata, and clears the
movement name. -/
theorem c8_four_part_assembly (s : Score) (md : Metadata)
    (hm : s.metadata = some md) (hp : 2 ≤ s.parts.length) :
    ∃ sop alt ten bas,
      extract_voice_to_part s 1 1 "Soprano" none = Except.ok sop
      ∧ extract_voice_to_part s 1 2 "Alto" (some (MStream.partS sop)) = Except.ok alt
      ∧ extract_voice_to_part s 2 5 "Tenor" (some (MStream.partS sop)) = Except.ok ten
      ∧ extract_voice_to_part s 2 6 "Bass" (some (MStream.partS sop)) = Except.ok bas
      ∧ create_single_4part_score s =
          Except.ok { metadata := some { title := md.title, composer := md.composer,
                                         movementName := none },
                      parts := [sop, alt, ten, bas] } := by
  have hsop := extract_voice_to_part_ok s 1 1 "Soprano" none (by omega) (by omega)
  have halt := extract_voice_to_part_ok s 1 2 "Alto"
      (some (MStream.partS (namedExtractedPart s 1 1 "Soprano" none))) (by omega) (by omega)
  have hten := extract_voice_to_part_ok s 2 5 "Tenor"
      (some (MStream.partS (namedExtractedPart s 1 1 "Soprano" none))) (by omega) (by omega)
  have hbas := extract_voice_to_part_ok s 2 6 "Bass"
      (some (MStream.partS (namedExtractedPart s 1 1 "Soprano" none))) (by omega) (by omega)
  refine ⟨_, _, _, _, hsop, halt, hten, hbas, ?_⟩
  have hassemble : assembleParts s VOICE_MAPPINGS none [] =
      Except.ok [namedExtractedPart s 1 1 "Soprano" none,
        namedExtractedPart s 1 2 "Alto"
          (some (MStream.partS (namedExtractedPart s 1 1 "Soprano" none))),
        namedExtractedPart s 2 5 "Tenor"
          (some (MStream.partS (namedExtractedPart s 1 1 "Soprano" none))),
        namedExtractedPart s 2 6 "Bass"
          (some (MStream.partS (namedExtractedPart s 1 1 "Soprano" none)))] := by
    have hfalse : streamTruthy none = false := rfl
    unfold VOICE_MAPPINGS
    simp only [assembleParts, Option.map, hsop, halt, hten, hbas, hfalse,
      namedExtractedPart_truthy, if_true, if_false, Bool.false_eq_true,
      List.nil_append, List.cons_append, List.append_nil]
  unfold create_single_4part_score
  rw [hm, hassemble]

/-- Exercises C8 on the sample score: the assembly succeeds, in SATB order,
with the soprano extraction as the shared lyric reference, the sample's
title and composer kept, and the movement name cleared. -/
theorem c8_four_part_assembly_witness :
    ∃ sop alt ten bas,
      extract_voice_to_part wScore 1 1 "Soprano" none = Except.ok sop
      ∧ extract_voice_to_part wScore 1 2 "Alto" (some (MStream.partS sop)) = Except.ok alt
      ∧ extract_voice_to_part wScore 2 5 "Tenor" (some (MStream.partS sop)) = Except.ok ten
      ∧ extract_voice_to_part wScore 2 6 "Bass" (some (MStream.partS sop)) = Except.ok bas
      ∧ create_single_4part_score wScore =
          Except.ok { metadata := some { title := some "Title", composer := some "Composer",
                                         movementName := none },
                      parts := [sop, alt, ten, bas] } :=
  c8_four_part_assembly wScore
    { title := some "Title", composer := some "Composer",
      movementName := some "file.musicxml" } rfl (by decide)

/-- C9.  A score without a metadata object makes `create_single_4part_score`
raise (the unconditional movement-name clearing dereferences the absent
metadata of the fresh result score); a score is returned only when the input
carries metadata. -/
theorem c9_missing_metadata (s : Score) (h : s.metadata = none) :
    create_single_4part_score s = Except.error errAttributeNone
    ∧ ∀ s2 r, create_single_4part_score s2 = Except.ok r → s2.metadata ≠ none := by
  constructor
  · unfold create_single_4part_score
    rw [h]
  · intro s2 r hok hnone
    unfold create_single_4part_score at hok
    rw [hnone] at hok
    cases hok

/-- Exercises C9 on the metadata-less sample score: the assembly fails with
the attribute error. -/
theorem c9_missing_metadata_witness :
    create_single_4part_score wScoreNoMeta = Except.error errAttributeNone :=
  (c9_missing_metadata wScoreNoMeta rfl).1

end Satb
